import Mathlib

/-!
# Verification of the hinge-analyzer match-log analysis program

This file is a shallow embedding of `src/main.rs` of the hinge-analyzer
repository, together with theorems settling the specification claims about it.

Modelling conventions:

* Rust `f64` values are modelled by `F64`: an exact rational (`fin q`) or one
  of the IEEE special values `inf`, `neginf`, `nan`.  Arithmetic on finite
  values is exact (no rounding); the special-value propagation rules
  (`0/0 = nan`, `x/0 = inf` for `x > 0`, `nan` absorbing, `nan` incomparable)
  follow IEEE 754.  The two IEEE zeroes are conflated into `fin 0`; every
  quantity in this program is a sum or quotient of non-negative counts, so the
  sign of zero never matters.
* Rust panics (the `unreachable!` arms of the funnel tally and the
  `.expect("Bad comparison in racial preferences")` of the sort comparator)
  are modelled by `Option.none`.
* Machine integers `u8`/`u16`/`u32`/`usize` are modelled by `Nat`; no
  computation in the program can overflow them (ethnicity bitmasks fit in
  16 bits, counts are bounded by row counts), and the one subtraction
  performed (`total - no_convo_attempted - no_convo_they_failed`) is `usize`
  subtraction on values where Lean's truncated `Nat` subtraction agrees.
* The `HashMap` iteration order used when the program turns its count maps
  into lists is unordered in Rust; it is determinised here to the `Race`
  declaration order (general entries first, Hispanic-variant entries second),
  matching the spec's design note that the order is incidental.
-/

deriving instance DecidableEq for Except

/-- Model of Rust `f64`: exact rationals plus the IEEE special values. -/
inductive F64 where
  | fin (q : ℚ)
  | inf
  | neginf
  | nan
deriving DecidableEq

namespace F64

/-- IEEE addition (exact on finite values). -/
def add : F64 → F64 → F64
  | .nan, _ => .nan
  | _, .nan => .nan
  | .fin a, .fin b => .fin (a + b)
  | .fin _, .inf => .inf
  | .fin _, .neginf => .neginf
  | .inf, .fin _ => .inf
  | .inf, .inf => .inf
  | .inf, .neginf => .nan
  | .neginf, .fin _ => .neginf
  | .neginf, .inf => .nan
  | .neginf, .neginf => .neginf

/-- IEEE multiplication (exact on finite values; `0 * inf = nan`). -/
def mul : F64 → F64 → F64
  | .nan, _ => .nan
  | _, .nan => .nan
  | .fin a, .fin b => .fin (a * b)
  | .fin a, .inf => if a = 0 then .nan else if 0 < a then .inf else .neginf
  | .fin a, .neginf => if a = 0 then .nan else if 0 < a then .neginf else .inf
  | .inf, .fin b => if b = 0 then .nan else if 0 < b then .inf else .neginf
  | .neginf, .fin b => if b = 0 then .nan else if 0 < b then .neginf else .inf
  | .inf, .inf => .inf
  | .inf, .neginf => .neginf
  | .neginf, .inf => .neginf
  | .neginf, .neginf => .inf

/-- IEEE division (exact on finite values; `0/0 = nan`, `x/0 = ±inf`,
`x/inf = 0`, `inf/inf = nan`). -/
def div : F64 → F64 → F64
  | .nan, _ => .nan
  | _, .nan => .nan
  | .fin a, .fin b =>
      if b = 0 then (if a = 0 then .nan else if 0 < a then .inf else .neginf)
      else .fin (a / b)
  | .fin _, .inf => .fin 0
  | .fin _, .neginf => .fin 0
  | .inf, .fin b => if 0 ≤ b then .inf else .neginf
  | .neginf, .fin b => if 0 ≤ b then .neginf else .inf
  | .inf, .inf => .nan
  | .inf, .neginf => .nan
  | .neginf, .inf => .nan
  | .neginf, .neginf => .nan

/-- Model of Rust `f64::partial_cmp`: `none` exactly when a `nan` is involved. -/
def cmpOpt : F64 → F64 → Option Ordering
  | .nan, _ => none
  | _, .nan => none
  | .fin a, .fin b => some (if a < b then .lt else if a = b then .eq else .gt)
  | .fin _, .inf => some .lt
  | .fin _, .neginf => some .gt
  | .inf, .fin _ => some .gt
  | .inf, .inf => some .eq
  | .inf, .neginf => some .gt
  | .neginf, .fin _ => some .lt
  | .neginf, .inf => some .lt
  | .neginf, .neginf => some .eq

/-- Model of Rust's `as f64` cast from an unsigned integer (exact below 2^53). -/
def ofNat (n : Nat) : F64 := .fin (n : ℚ)

/-- Projection of a finite value to its rational; `0` on special values. -/
def toQ : F64 → ℚ
  | .fin q => q
  | _ => 0

/-- Sum of a list of `f64` values, as computed by `Iterator::sum::<f64>()`. -/
def sum (l : List F64) : F64 := l.foldl add (.fin 0)

end F64

/-- The `Race` enum of `src/main.rs`. -/
inductive Race where
  | WhiteCaucasian
  | BlackAfrican
  | NativeAmerican
  | Asian
  | PacificIslander
  | Multiracial
  | Hispanic
  | Other
deriving DecidableEq

/-- `Race::entries()`: every race in declaration order. -/
def Race.entries : List Race :=
  [.WhiteCaucasian, .BlackAfrican, .NativeAmerican, .Asian,
   .PacificIslander, .Multiracial, .Hispanic, .Other]

/-- `Race::aggregate`: occurrence count of each race in the input sequence
(the source initialises every race's entry to `0` and increments per
occurrence, so the map is exactly the occurrence-count function). -/
def Race.aggregate (races : List Race) : Race → Nat :=
  fun race => (races.filter (fun r => decide (r = race))).length

/-- The `WhoLastReplied` enum of `src/main.rs`. -/
inductive WhoLastReplied where
  | You
  | Them
  | Met
  | None
deriving DecidableEq

/-- Classification failure of `TryFrom<Ethnicities> for Race`.
`EmptyEthnicity` is the source's error string `"Ethnicity is empty"`;
`UnsupportedOnly` is `"Ethnicity only contains values that are not supported
to be converted to a race distinction"`. -/
inductive RaceError where
  | EmptyEthnicity
  | UnsupportedOnly
deriving DecidableEq

namespace Ethnicities

/-- Bit flag constants of `impl Ethnicities` (a `u16` bitmask). -/
def NATIVE_AMERICAN : Nat := 0x0001

def SOUTHEAST_ASIAN : Nat := 0x0002

def BLACK_AFRICAN_DESCENT : Nat := 0x0004

def EAST_ASIAN : Nat := 0x0008

def HISPANIC_LATINO : Nat := 0x0010

def MIDDLE_EASTERN : Nat := 0x0020

def PACIFIC_ISLANDER : Nat := 0x0040

def SOUTH_ASIAN : Nat := 0x0080

def WHITE_CAUCASIAN : Nat := 0x0100

def OTHER : Nat := 0x8000

/-- `ASIAN_RACE_ETHNICITIES = SOUTHEAST_ASIAN | SOUTH_ASIAN | EAST_ASIAN`. -/
def ASIAN_RACE_ETHNICITIES : Nat := SOUTHEAST_ASIAN ||| SOUTH_ASIAN ||| EAST_ASIAN

/-- The `u16` complement `!MIDDLE_EASTERN` (`UNSUPPORTED_ETHNICITIES`). -/
def NOT_MIDDLE_EASTERN : Nat := 0xFFDF

/-- The `u16` complement `!HISPANIC_LATINO`. -/
def NOT_HISPANIC_LATINO : Nat := 0xFFEF

end Ethnicities

/-- `TryFrom<Ethnicities> for Race`: the ethnicity-bitmask-to-race classifier
of `src/main.rs` lines 99-138, arm for arm. -/
def Race.try_from (bits : Nat) : Except RaceError Race :=
  if bits = 0 then .error .EmptyEthnicity
  else
    let b := bits &&& Ethnicities.NOT_MIDDLE_EASTERN
    if b = 0 then .error .UnsupportedOnly
    else if b = Ethnicities.NATIVE_AMERICAN then .ok .NativeAmerican
    else if b = Ethnicities.SOUTHEAST_ASIAN then .ok .Asian
    else if b = Ethnicities.BLACK_AFRICAN_DESCENT then .ok .BlackAfrican
    else if b = Ethnicities.EAST_ASIAN then .ok .Asian
    else if b = Ethnicities.PACIFIC_ISLANDER then .ok .PacificIslander
    else if b = Ethnicities.SOUTH_ASIAN then .ok .Asian
    else if b = Ethnicities.WHITE_CAUCASIAN then .ok .WhiteCaucasian
    else if b = Ethnicities.HISPANIC_LATINO then .ok .Hispanic
    else if b = Ethnicities.OTHER then .ok .Other
    else if b &&& Ethnicities.ASIAN_RACE_ETHNICITIES = b then .ok .Asian
    else if b &&& Ethnicities.HISPANIC_LATINO ≠ 0 then .ok .Hispanic
    else .ok .Multiracial

/-- An ethnicity set over the ten named flags (the abstract `EthnicitySet` of
the spec's data model; every representable `Ethnicities` bitmask arises as
`toBits` of exactly one such set). -/
structure EthnicitySet where
  native_american : Bool
  southeast_asian : Bool
  black_african_descent : Bool
  east_asian : Bool
  hispanic_latino : Bool
  middle_eastern : Bool
  pacific_islander : Bool
  south_asian : Bool
  white_caucasian : Bool
  other : Bool
deriving DecidableEq

/-- The empty ethnicity set. -/
def EthnicitySet.empty : EthnicitySet :=
  ⟨false, false, false, false, false, false, false, false, false, false⟩

/-- The bitmask encoding of an ethnicity set, flag constant by flag constant
(the same encoding `TryFrom<HingeProfileCSVRecord>` builds from the CSV
indicator columns). -/
def EthnicitySet.toBits (s : EthnicitySet) : Nat :=
  (if s.native_american then Ethnicities.NATIVE_AMERICAN else 0) |||
  (if s.southeast_asian then Ethnicities.SOUTHEAST_ASIAN else 0) |||
  (if s.black_african_descent then Ethnicities.BLACK_AFRICAN_DESCENT else 0) |||
  (if s.east_asian then Ethnicities.EAST_ASIAN else 0) |||
  (if s.hispanic_latino then Ethnicities.HISPANIC_LATINO else 0) |||
  (if s.middle_eastern then Ethnicities.MIDDLE_EASTERN else 0) |||
  (if s.pacific_islander then Ethnicities.PACIFIC_ISLANDER else 0) |||
  (if s.south_asian then Ethnicities.SOUTH_ASIAN else 0) |||
  (if s.white_caucasian then Ethnicities.WHITE_CAUCASIAN else 0) |||
  (if s.other then Ethnicities.OTHER else 0)

/-- The classifier as the specification words it (§4.1 policy, evaluated in the
stated precedence order): empty set fails with `EmptyEthnicity`; remove
MiddleEastern; empty remainder fails with `UnsupportedOnly`; an exact single
supported flag maps by the fixed table; a non-empty remainder that is a subset
of {SoutheastAsian, EastAsian, SouthAsian} maps to Asian; a remainder
containing HispanicLatino maps to Hispanic; anything else is Multiracial.
This definition follows the spec's words and is compared against
`Race.try_from`, which is translated from the source. -/
def classifySpec (s : EthnicitySet) : Except RaceError Race :=
  if s = .empty then .error .EmptyEthnicity
  else
    let r := { s with middle_eastern := false }
    if r = .empty then .error .UnsupportedOnly
    else if r = { EthnicitySet.empty with native_american := true } then .ok .NativeAmerican
    else if r = { EthnicitySet.empty with southeast_asian := true } then .ok .Asian
    else if r = { EthnicitySet.empty with east_asian := true } then .ok .Asian
    else if r = { EthnicitySet.empty with south_asian := true } then .ok .Asian
    else if r = { EthnicitySet.empty with black_african_descent := true } then .ok .BlackAfrican
    else if r = { EthnicitySet.empty with pacific_islander := true } then .ok .PacificIslander
    else if r = { EthnicitySet.empty with white_caucasian := true } then .ok .WhiteCaucasian
    else if r = { EthnicitySet.empty with hispanic_latino := true } then .ok .Hispanic
    else if r = { EthnicitySet.empty with other := true } then .ok .Other
    else if !r.native_american && !r.black_african_descent && !r.hispanic_latino &&
            !r.pacific_islander && !r.white_caucasian && !r.other then .ok .Asian
    else if r.hispanic_latino then .ok .Hispanic
    else .ok .Multiracial

/-- The ethnicity bitmask the Hispanic sub-race path classifies
(`src/main.rs` lines 459-461): a profile whose ethnicity is exactly
`HISPANIC_LATINO` is replaced by `OTHER`; otherwise the `HISPANIC_LATINO`
flag is masked off. -/
def hispanic_subrace_bits (bits : Nat) : Nat :=
  if bits = Ethnicities.HISPANIC_LATINO then Ethnicities.OTHER
  else bits &&& Ethnicities.NOT_HISPANIC_LATINO

/-- The Hispanic sub-race classification: the ordinary classifier run on the
transformed bitmask (`Race::try_from` composed with the map of lines 459-462). -/
def classify_hispanic_subrace (bits : Nat) : Except RaceError Race :=
  Race.try_from (hispanic_subrace_bits bits)

/-- The `HingeProfileCSVRecord` struct: one raw row of `matches.csv`
(`u8` columns modelled by `Nat`). -/
structure HingeProfileCSVRecord where
  name : String
  matched : Nat
  convo : Nat
  last_reply : String
  specified : Nat
  native_american : Nat
  southeast_asian : Nat
  black_african_descent : Nat
  east_asian : Nat
  hispanic_latino : Nat
  middle_eastern : Nat
  pacific_islander : Nat
  south_asian : Nat
  white_caucasian : Nat
  other : Nat
deriving DecidableEq

/-- The validated `HingeProfile` struct (`ethnicity` carries the raw bitmask
of the source's `Ethnicities` newtype). -/
structure HingeProfile where
  name : String
  matched : Bool
  convo : Bool
  who_last_replied : WhoLastReplied
  ethnicity_specified : Bool
  ethnicity : Nat
  race : Option Race
deriving DecidableEq

/-- The `last_reply` string match of `TryFrom<HingeProfileCSVRecord>`. -/
def parse_last_reply (s : String) : Except String WhoLastReplied :=
  if s = "You" then .ok .You
  else if s = "Them" then .ok .Them
  else if s = "None" then .ok .None
  else if s = "Met" then .ok .Met
  else .error "Invalid value for Who Last Replied"

/-- `TryFrom<HingeProfileCSVRecord> for HingeProfile` (`src/main.rs` lines
170-212): parses `last_reply`, rejects the two inconsistent
conversation/reply combinations, assembles the ethnicity bitmask, and derives
the race via the classifier. -/
def HingeProfile.try_from (record : HingeProfileCSVRecord) :
    Except String HingeProfile :=
  match parse_last_reply record.last_reply with
  | .error e => .error e
  | .ok who_last_replied =>
    if who_last_replied = .Met ∧ record.convo = 0 then
      .error "Who Last Replied is Met but Conversation is False"
    else if who_last_replied = .None ∧ record.convo ≠ 0 then
      .error "Who Last Replied is None but Conversation is True"
    else
      let ethnicity :=
        (if record.native_american ≠ 0 then Ethnicities.NATIVE_AMERICAN else 0) |||
        (if record.southeast_asian ≠ 0 then Ethnicities.SOUTHEAST_ASIAN else 0) |||
        (if record.black_african_descent ≠ 0 then Ethnicities.BLACK_AFRICAN_DESCENT else 0) |||
        (if record.east_asian ≠ 0 then Ethnicities.EAST_ASIAN else 0) |||
        (if record.hispanic_latino ≠ 0 then Ethnicities.HISPANIC_LATINO else 0) |||
        (if record.middle_eastern ≠ 0 then Ethnicities.MIDDLE_EASTERN else 0) |||
        (if record.pacific_islander ≠ 0 then Ethnicities.PACIFIC_ISLANDER else 0) |||
        (if record.south_asian ≠ 0 then Ethnicities.SOUTH_ASIAN else 0) |||
        (if record.white_caucasian ≠ 0 then Ethnicities.WHITE_CAUCASIAN else 0) |||
        (if record.other ≠ 0 then Ethnicities.OTHER else 0)
      .ok { name := record.name,
            matched := record.matched != 0,
            convo := record.convo != 0,
            who_last_replied := who_last_replied,
            ethnicity_specified := record.specified != 0,
            ethnicity := ethnicity,
            race := (Race.try_from ethnicity).toOption }

/-- The profile list `run_analysis` works on: every CSV record that converts
successfully, in order (records that fail conversion are skipped). -/
def validated_profiles (records : List HingeProfileCSVRecord) : List HingeProfile :=
  records.filterMap (fun record => (HingeProfile.try_from record).toOption)

/-- A row of `demographics.csv` (`u32` population counts modelled by `Nat`). -/
structure CountyDemographicsCSVRecord where
  county : String
  white_alone : Nat
  black_african_american_alone : Nat
  american_indian_alaska_native_alone : Nat
  asian_alone : Nat
  native_hawaiian_pacific_islander_alone : Nat
  some_other_race_alone : Nat
  two_or_more_races : Nat
  hispanic_latino : Nat
deriving DecidableEq

/-- A row of `hispanic_demographics.csv`. -/
structure CountyHispanicDemographicsCSVRecord where
  county : String
  white_hispanic : Nat
  black_african_american_hispanic : Nat
  american_indian_alaska_native_hispanic : Nat
  asian_hispanic : Nat
  native_hawaiian_pacific_islander_hispanic : Nat
  some_other_race_hispanic : Nat
  two_or_more_races_hispanic : Nat
deriving DecidableEq

/-- Which column of a general-demographics row feeds which race's entry of
`race_weights` (the eight `entry(...).and_modify` updates of lines 340-373). -/
def general_population_field (record : CountyDemographicsCSVRecord) : Race → Nat
  | .WhiteCaucasian => record.white_alone
  | .BlackAfrican => record.black_african_american_alone
  | .NativeAmerican => record.american_indian_alaska_native_alone
  | .Asian => record.asian_alone
  | .PacificIslander => record.native_hawaiian_pacific_islander_alone
  | .Multiracial => record.two_or_more_races
  | .Hispanic => record.hispanic_latino
  | .Other => record.some_other_race_alone

/-- Which column of a Hispanic-demographics row feeds which race's entry of
`hispanic_race_weights` (lines 385-414).  The `hispanic_race_weights` map has
no `Hispanic` key, so that race's value is `0` and is never looked up. -/
def hispanic_population_field (record : CountyHispanicDemographicsCSVRecord) :
    Race → Nat
  | .WhiteCaucasian => record.white_hispanic
  | .BlackAfrican => record.black_african_american_hispanic
  | .NativeAmerican => record.american_indian_alaska_native_hispanic
  | .Asian => record.asian_hispanic
  | .PacificIslander => record.native_hawaiian_pacific_islander_hispanic
  | .Multiracial => record.two_or_more_races_hispanic
  | .Hispanic => 0
  | .Other => record.some_other_race_hispanic

/-- Summing one race's column over all records, in `f64` (the accumulation
loop: the map entry starts at `0.0` and adds each record's count cast to
`f64`). -/
def population_sum {ρ : Type} (records : List ρ) (field : ρ → Nat) : F64 :=
  records.foldl (fun acc record => acc.add (F64.ofNat (field record))) (.fin 0)

/-- `race_weights[race]` before normalization: the summed general population
count of `race`. -/
def race_weights_sum (records : List CountyDemographicsCSVRecord) (race : Race) :
    F64 :=
  population_sum records (general_population_field · race)

/-- `race_total_population = race_weights.values().sum::<f64>()` (line 375);
`HashMap` value order determinised to `Race` declaration order — addition of
these exact values is associative-commutative, so the order is immaterial. -/
def race_total_population (records : List CountyDemographicsCSVRecord) : F64 :=
  F64.sum (Race.entries.map (race_weights_sum records))

/-- The normalized general baseline: `*weight /= race_total_population`
(line 376). -/
def race_weights (records : List CountyDemographicsCSVRecord) (race : Race) :
    F64 :=
  (race_weights_sum records race).div (race_total_population records)

/-- The seven races of the Hispanic-subpopulation domain (the
`hispanic_race_weights` map keys; also both domains of the preference list
after `remove(&Race::Hispanic)`), in `Race` declaration order. -/
def hispanic_race_domain : List Race :=
  [.WhiteCaucasian, .BlackAfrican, .NativeAmerican, .Asian,
   .PacificIslander, .Multiracial, .Other]

/-- `hispanic_race_weights[race]` before normalization. -/
def hispanic_race_weights_sum (records : List CountyHispanicDemographicsCSVRecord)
    (race : Race) : F64 :=
  population_sum records (hispanic_population_field · race)

/-- `hispanic_race_total_population` (line 416). -/
def hispanic_race_total_population
    (records : List CountyHispanicDemographicsCSVRecord) : F64 :=
  F64.sum (hispanic_race_domain.map (hispanic_race_weights_sum records))

/-- The normalized Hispanic-subpopulation baseline (line 417). -/
def hispanic_race_weights (records : List CountyHispanicDemographicsCSVRecord)
    (race : Race) : F64 :=
  (hispanic_race_weights_sum records race).div
    (hispanic_race_total_population records)

/-- The `RacialPreference` struct. -/
structure RacialPreference where
  race : Race
  hispanic : Bool
  weight : F64
  count : Nat
deriving DecidableEq

/-- The general race counts of `run_analysis` (line 454): classifier output
aggregated over the validated profiles. -/
def profile_race_counts (profiles : List HingeProfile) : Race → Nat :=
  Race.aggregate (profiles.filterMap (·.race))

/-- The transformed ethnicity bitmasks of the Hispanic-flagged profiles
(lines 456-461). -/
def hispanic_ethnicity_bits (profiles : List HingeProfile) : List Nat :=
  (profiles.filter
      (fun profile => (profile.ethnicity &&& Ethnicities.HISPANIC_LATINO) != 0)).map
    (fun profile => hispanic_subrace_bits profile.ethnicity)

/-- The Hispanic sub-race counts of `run_analysis` (lines 455-462):
classifier output over the transformed bitmasks, classification failures
filtered out. -/
def profile_hispanic_race_counts (profiles : List HingeProfile) : Race → Nat :=
  Race.aggregate
    ((hispanic_ethnicity_bits profiles).filterMap
      (fun bits => (Race.try_from bits).toOption))

/-- The raw (pre-normalization) preference entries (lines 481-499): one entry
per race of each domain — both count maps have had `Race::Hispanic` removed,
leaving the seven races of `hispanic_race_domain` — with the cutoff-gated
weight formulas.  `HashMap` iteration order determinised to declaration
order, general entries before Hispanic-variant entries. -/
def racial_preferences (cutoff : Nat) (race_counts hispanic_race_counts : Race → Nat)
    (rweights hweights : Race → F64) : List RacialPreference :=
  hispanic_race_domain.map (fun race =>
    { race := race, hispanic := false,
      weight := if race_counts race < cutoff then .fin 0
                else (F64.ofNat (race_counts race)).div (rweights race),
      count := race_counts race })
  ++ hispanic_race_domain.map (fun race =>
    { race := race, hispanic := true,
      weight := if hispanic_race_counts race < cutoff then .fin 0
                else (F64.ofNat (hispanic_race_counts race)).div
                      ((rweights Race.Hispanic).mul (hweights race)),
      count := hispanic_race_counts race })

/-- `racial_preferences_total_weight` (line 501): the sum of all raw weights. -/
def racial_preferences_total_weight (preferences : List RacialPreference) : F64 :=
  F64.sum (preferences.map (·.weight))

/-- The normalization pass (line 502): every entry's weight divided by the
total. -/
def normalize_preferences (preferences : List RacialPreference) :
    List RacialPreference :=
  let total := racial_preferences_total_weight preferences
  preferences.map (fun preference =>
    { preference with weight := preference.weight.div total })

/-- Stable insertion of an element into a sorted list under a comparator that
may fail; `none` models the comparator panicking (`partial_cmp(..).expect`).
The element is placed before the first element it compares `lt` to. -/
def insertByCmp {α : Type} (cmp : α → α → Option Ordering) (x : α) :
    List α → Option (List α)
  | [] => some [x]
  | y :: ys =>
    match cmp x y with
    | none => none
    | some .lt => some (x :: y :: ys)
    | some _ => (insertByCmp cmp x ys).map (y :: ·)

/-- Sorting under a fallible comparator; `none` models the panic Rust's
`sort_by` raises when a performed comparison returns `None` (any list whose
comparisons are all defined sorts without panicking; a list of ≥ 2 mutually
incomparable elements always panics, as Rust's sort does on its first
comparison). -/
def sortByCmp {α : Type} (cmp : α → α → Option Ordering) :
    List α → Option (List α)
  | [] => some []
  | x :: xs => (sortByCmp cmp xs).bind (insertByCmp cmp x)

/-- The sort of line 503: descending by weight, the comparator being
`b.weight.partial_cmp(&a.weight).expect("Bad comparison in racial preferences")`. -/
def sort_preferences (preferences : List RacialPreference) :
    Option (List RacialPreference) :=
  sortByCmp (fun a b => F64.cmpOpt b.weight a.weight) preferences

/-- The whole preference-index computation of lines 481-503: build raw
entries, sum, normalize, sort.  `none` is the sort's comparator panic. -/
def preference_pipeline (cutoff : Nat)
    (race_counts hispanic_race_counts : Race → Nat)
    (rweights hweights : Race → F64) : Option (List RacialPreference) :=
  sort_preferences
    (normalize_preferences
      (racial_preferences cutoff race_counts hispanic_race_counts rweights hweights))

/-- The funnel tally counters (lines 512-519). -/
structure FunnelCounts where
  no_convo_count : Nat
  no_convo_attempted_count : Nat
  no_convo_you_failed_count : Nat
  no_convo_they_failed_count : Nat
  convo_started_count : Nat
  convo_started_you_failed_count : Nat
  convo_started_they_failed_count : Nat
  you_met_count : Nat
deriving DecidableEq

/-- All counters at zero. -/
def funnel_init : FunnelCounts := ⟨0, 0, 0, 0, 0, 0, 0, 0⟩

/-- One iteration of the tally loop (lines 521-539); the two `unreachable!`
arms are modelled by `none`. -/
def funnel_step (c : FunnelCounts) (profile : HingeProfile) :
    Option FunnelCounts :=
  if profile.convo then
    match profile.who_last_replied with
    | .You => some { c with convo_started_count := c.convo_started_count + 1,
                            convo_started_you_failed_count := c.convo_started_you_failed_count + 1 }
    | .Them => some { c with convo_started_count := c.convo_started_count + 1,
                             convo_started_they_failed_count := c.convo_started_they_failed_count + 1 }
    | .Met => some { c with convo_started_count := c.convo_started_count + 1,
                            you_met_count := c.you_met_count + 1 }
    | .None => none
  else
    match profile.who_last_replied with
    | .You => some { c with no_convo_count := c.no_convo_count + 1,
                            no_convo_you_failed_count := c.no_convo_you_failed_count + 1 }
    | .Them => some { c with no_convo_count := c.no_convo_count + 1,
                             no_convo_they_failed_count := c.no_convo_they_failed_count + 1 }
    | .None => some { c with no_convo_count := c.no_convo_count + 1,
                             no_convo_attempted_count := c.no_convo_attempted_count + 1 }
    | .Met => none

/-- The funnel tally over a profile list; `none` as soon as an `unreachable!`
arm is hit. -/
def funnelTally (profiles : List HingeProfile) : Option FunnelCounts :=
  profiles.foldl (fun acc profile => acc.bind (funnel_step · profile)) (some funnel_init)

/-- `convo_you_attempted_count = total_profiles - no_convo_attempted_count -
no_convo_they_failed_count` (line 541, `usize` subtraction). -/
def convo_you_attempted_count (total_profiles : Nat) (c : FunnelCounts) : Nat :=
  total_profiles - c.no_convo_attempted_count - c.no_convo_they_failed_count

/-- `conversation_interested_score` (line 543). -/
def conversation_interested_score (total_profiles : Nat) (c : FunnelCounts) : F64 :=
  (F64.ofNat (convo_you_attempted_count total_profiles c)).div (F64.ofNat total_profiles)

/-- `conversation_they_failed_score` (line 544). -/
def conversation_they_failed_score (total_profiles : Nat) (c : FunnelCounts) : F64 :=
  (F64.ofNat c.no_convo_they_failed_count).div (F64.ofNat total_profiles)

/-- `conversation_no_one_interested_score` (line 545). -/
def conversation_no_one_interested_score (total_profiles : Nat) (c : FunnelCounts) : F64 :=
  (F64.ofNat c.no_convo_attempted_count).div (F64.ofNat total_profiles)

/-- `conversation_starter_score` (line 546). -/
def conversation_starter_score (total_profiles : Nat) (c : FunnelCounts) : F64 :=
  (F64.ofNat c.convo_started_count).div
    (F64.ofNat (convo_you_attempted_count total_profiles c))

/-- `conversation_starter_failed_score` (line 547). -/
def conversation_starter_failed_score (total_profiles : Nat) (c : FunnelCounts) : F64 :=
  (F64.ofNat c.no_convo_you_failed_count).div
    (F64.ofNat (convo_you_attempted_count total_profiles c))

/-- `conversation_to_them_ghosting_score` (line 548). -/
def conversation_to_them_ghosting_score (c : FunnelCounts) : F64 :=
  (F64.ofNat c.convo_started_you_failed_count).div (F64.ofNat c.convo_started_count)

/-- `conversation_to_you_ghosting_score` (line 549). -/
def conversation_to_you_ghosting_score (c : FunnelCounts) : F64 :=
  (F64.ofNat c.convo_started_they_failed_count).div (F64.ofNat c.convo_started_count)

/-- `conversation_to_date_score` (line 550). -/
def conversation_to_date_score (c : FunnelCounts) : F64 :=
  (F64.ofNat c.you_met_count).div (F64.ofNat c.convo_started_count)

/-- Every funnel metric and derived ratio the report prints (lines 543-576):
the eight scores, the four ghosting percentages, and the date-conversion
product. -/
def funnel_report (profiles : List HingeProfile) : Option (List F64) :=
  (funnelTally profiles).map (fun c =>
    [conversation_interested_score profiles.length c,
     conversation_they_failed_score profiles.length c,
     conversation_no_one_interested_score profiles.length c,
     conversation_starter_score profiles.length c,
     conversation_starter_failed_score profiles.length c,
     conversation_to_them_ghosting_score c,
     conversation_to_you_ghosting_score c,
     conversation_to_date_score c,
     ((F64.ofNat (c.no_convo_they_failed_count + c.convo_started_they_failed_count)).div
        (F64.ofNat profiles.length)).mul (.fin 100),
     ((F64.ofNat (c.no_convo_you_failed_count + c.convo_started_you_failed_count)).div
        (F64.ofNat profiles.length)).mul (.fin 100),
     ((F64.ofNat c.no_convo_attempted_count).div
        (F64.ofNat profiles.length)).mul (.fin 100),
     ((F64.ofNat c.you_met_count).div (F64.ofNat profiles.length)).mul (.fin 100),
     (conversation_starter_score profiles.length c).mul (conversation_to_date_score c)])

/-- Two profiles agreeing on every field except possibly `matched` and
`ethnicity_specified`. -/
def obs_equiv (p q : HingeProfile) : Prop :=
  p.name = q.name ∧ p.convo = q.convo ∧ p.who_last_replied = q.who_last_replied
  ∧ p.ethnicity = q.ethnicity ∧ p.race = q.race

/-- A profile whose self-reported ethnicity is exactly
{HispanicLatino, MiddleEastern} (bitmask `0x30`), as produced by validation. -/
def profile_hl_me : HingeProfile :=
  { name := "hl-me", matched := true, convo := false,
    who_last_replied := .None, ethnicity_specified := true,
    ethnicity := Ethnicities.HISPANIC_LATINO ||| Ethnicities.MIDDLE_EASTERN,
    race := (Race.try_from
      (Ethnicities.HISPANIC_LATINO ||| Ethnicities.MIDDLE_EASTERN)).toOption }

/-- Concrete observed counts used when analysing the normalization step: two
WhiteCaucasian matches, nothing else. -/
def c7_counts : Race → Nat
  | .WhiteCaucasian => 2
  | .BlackAfrican => 0
  | .NativeAmerican => 0
  | .Asian => 0
  | .PacificIslander => 0
  | .Multiracial => 0
  | .Hispanic => 0
  | .Other => 0

/-- A general baseline distribution whose WhiteCaucasian weight is `0.0` (a
census input recording zero WhiteCaucasian population) and `1/8` elsewhere. -/
def c7_zero_white_weights : Race → F64
  | .WhiteCaucasian => .fin 0
  | .BlackAfrican => .fin (1/8)
  | .NativeAmerican => .fin (1/8)
  | .Asian => .fin (1/8)
  | .PacificIslander => .fin (1/8)
  | .Multiracial => .fin (1/8)
  | .Hispanic => .fin (1/8)
  | .Other => .fin (1/8)

/-! ## Helper lemmas -/

theorem F64.div_fin_fin (a b : ℚ) (hb : b ≠ 0) :
    (F64.fin a).div (.fin b) = .fin (a / b) := by
  simp [F64.div, hb]

theorem F64.mul_fin_fin (a b : ℚ) :
    (F64.fin a).mul (.fin b) = .fin (a * b) := rfl

theorem F64.div_zero_zero : (F64.fin 0).div (.fin 0) = .nan := by
  simp [F64.div]

theorem F64.foldl_add_fin :
    ∀ (l : List F64) (a : ℚ), (∀ x ∈ l, ∃ q, x = F64.fin q) →
      l.foldl F64.add (.fin a) = .fin (a + (l.map F64.toQ).sum)
  | [], a, _ => by simp
  | x :: xs, a, h => by
    obtain ⟨q, rfl⟩ := h x (by simp)
    have ih := F64.foldl_add_fin xs (a + q) (fun y hy => h y (by simp [hy]))
    simp only [List.foldl_cons, F64.add, ih, List.map_cons, List.sum_cons, F64.toQ]
    ring_nf

theorem F64.sum_fin (l : List F64) (h : ∀ x ∈ l, ∃ q, x = F64.fin q) :
    F64.sum l = .fin ((l.map F64.toQ).sum) := by
  have := F64.foldl_add_fin l 0 h
  simpa [F64.sum] using this

theorem list_sum_map_div (l : List ℚ) (t : ℚ) :
    (l.map (· / t)).sum = l.sum / t := by
  induction l with
  | nil => simp
  | cons x xs ih => simp [ih, add_div]

theorem foldl_add_ofNat (l : List Nat) (a : Nat) :
    l.foldl (fun acc n => acc.add (F64.ofNat n)) (F64.ofNat a)
      = F64.ofNat (a + l.sum) := by
  induction l generalizing a with
  | nil => simp
  | cons x xs ih =>
    have : (F64.ofNat a).add (F64.ofNat x) = F64.ofNat (a + x) := by
      simp [F64.ofNat, F64.add]
    simp only [List.foldl_cons, this, ih, List.sum_cons]
    congr 1
    omega

theorem population_sum_eq {ρ : Type} (records : List ρ) (field : ρ → Nat) :
    population_sum records field = F64.ofNat ((records.map field).sum) := by
  have h := foldl_add_ofNat (records.map field) 0
  rw [List.foldl_map] at h
  simpa [population_sum, F64.ofNat] using h

theorem sum_map_ofNat {α : Type} (dom : List α) (N : α → Nat) :
    F64.sum (dom.map (fun r => F64.ofNat (N r))) = F64.ofNat ((dom.map N).sum) := by
  have h := foldl_add_ofNat (dom.map N) 0
  rw [List.foldl_map] at h
  simp only [F64.sum, List.foldl_map]
  simpa [F64.ofNat] using h

theorem nat_list_sum_zero (l : List Nat) (h : l.sum = 0) : ∀ x ∈ l, x = 0 := by
  induction l with
  | nil => simp
  | cons x xs ih =>
    simp only [List.sum_cons] at h
    intro y hy
    rcases List.mem_cons.mp hy with rfl | hy
    · omega
    · exact ih (by omega) y hy

theorem race_weights_sum_eq (records : List CountyDemographicsCSVRecord)
    (race : Race) :
    race_weights_sum records race
      = F64.ofNat ((records.map (general_population_field · race)).sum) := by
  simp [race_weights_sum, population_sum_eq]

theorem hispanic_race_weights_sum_eq
    (records : List CountyHispanicDemographicsCSVRecord) (race : Race) :
    hispanic_race_weights_sum records race
      = F64.ofNat ((records.map (hispanic_population_field · race)).sum) := by
  simp [hispanic_race_weights_sum, population_sum_eq]

theorem baseline_sums_zero {α ρ : Type} (dom : List α) (records : List ρ)
    (field : α → ρ → Nat)
    (h : F64.sum (dom.map (fun r => F64.ofNat ((records.map (field r)).sum)))
           = F64.fin 0) :
    ∀ r ∈ dom, ((records.map (field r)).sum = 0) := by
  rw [sum_map_ofNat] at h
  have hz : ((dom.map (fun r => (records.map (field r)).sum)).sum : Nat) = 0 := by
    have := h
    simp only [F64.ofNat, F64.fin.injEq] at this
    exact_mod_cast this
  intro r hr
  exact nat_list_sum_zero _ hz _ (List.mem_map.mpr ⟨r, hr, rfl⟩)

theorem funnel_fold_none (l : List HingeProfile) :
    l.foldl (fun acc profile => acc.bind (funnel_step · profile)) none = none := by
  induction l with
  | nil => rfl
  | cons p ps ih => simpa using ih

theorem funnel_step_isSome (c : FunnelCounts) (p : HingeProfile)
    (h1 : ¬(p.convo = false ∧ p.who_last_replied = .Met))
    (h2 : ¬(p.convo = true ∧ p.who_last_replied = .None)) :
    ∃ c', funnel_step c p = some c' := by
  unfold funnel_step
  cases hc : p.convo <;> cases hw : p.who_last_replied <;> simp_all

theorem funnel_fold_isSome (l : List HingeProfile)
    (h : ∀ p ∈ l, ¬(p.convo = false ∧ p.who_last_replied = .Met)
                  ∧ ¬(p.convo = true ∧ p.who_last_replied = .None)) :
    ∀ c, ∃ c', l.foldl (fun acc profile => acc.bind (funnel_step · profile))
                 (some c) = some c' := by
  induction l with
  | nil => exact fun c => ⟨c, rfl⟩
  | cons p ps ih =>
    intro c
    obtain ⟨h1, h2⟩ := h p (by simp)
    obtain ⟨c1, hc1⟩ := funnel_step_isSome c p h1 h2
    have := ih (fun q hq => h q (by simp [hq]))
    obtain ⟨c', hc'⟩ := this c1
    exact ⟨c', by simpa [hc1] using hc'⟩

theorem funnel_fold_invariant :
    ∀ (l : List HingeProfile) (c0 c : FunnelCounts),
      l.foldl (fun acc profile => acc.bind (funnel_step · profile)) (some c0)
        = some c →
      c.no_convo_count + c.convo_started_count
          = c0.no_convo_count + c0.convo_started_count + l.length
      ∧ c.no_convo_count
          + (c0.no_convo_attempted_count + c0.no_convo_you_failed_count
              + c0.no_convo_they_failed_count)
          = c0.no_convo_count
          + (c.no_convo_attempted_count + c.no_convo_you_failed_count
              + c.no_convo_they_failed_count)
      ∧ c.convo_started_count
          + (c0.convo_started_you_failed_count + c0.convo_started_they_failed_count
              + c0.you_met_count)
          = c0.convo_started_count
          + (c.convo_started_you_failed_count + c.convo_started_they_failed_count
              + c.you_met_count)
  | [], c0, c => by
    intro h
    simp only [List.foldl_nil, Option.some.injEq] at h
    subst h
    simp
  | p :: ps, c0, c => by
    intro h
    simp only [List.foldl_cons, Option.some_bind] at h
    rcases hs : funnel_step c0 p with _ | c1
    · rw [hs] at h
      rw [funnel_fold_none] at h
      exact absurd h (by simp)
    · rw [hs] at h
      have ih := funnel_fold_invariant ps c1 c h
      have hstep :
          c1.no_convo_count + c1.convo_started_count
              = c0.no_convo_count + c0.convo_started_count + 1
          ∧ c1.no_convo_count
              + (c0.no_convo_attempted_count + c0.no_convo_you_failed_count
                  + c0.no_convo_they_failed_count)
              = c0.no_convo_count
              + (c1.no_convo_attempted_count + c1.no_convo_you_failed_count
                  + c1.no_convo_they_failed_count)
          ∧ c1.convo_started_count
              + (c0.convo_started_you_failed_count + c0.convo_started_they_failed_count
                  + c0.you_met_count)
              = c0.convo_started_count
              + (c1.convo_started_you_failed_count + c1.convo_started_they_failed_count
                  + c1.you_met_count) := by
        unfold funnel_step at hs
        cases hc : p.convo <;> cases hw : p.who_last_replied <;>
          simp_all <;> (subst hs; simp; omega)
      simp only [List.length_cons]
      omega

theorem funnelTally_invariant (l : List HingeProfile) (c : FunnelCounts)
    (h : funnelTally l = some c) :
    c.no_convo_count + c.convo_started_count = l.length
    ∧ c.no_convo_attempted_count + c.no_convo_you_failed_count
        + c.no_convo_they_failed_count = c.no_convo_count
    ∧ c.convo_started_you_failed_count + c.convo_started_they_failed_count
        + c.you_met_count = c.convo_started_count := by
  have := funnel_fold_invariant l funnel_init c h
  simp only [funnel_init] at this
  omega

theorem try_from_ok_valid (record : HingeProfileCSVRecord) (p : HingeProfile)
    (h : HingeProfile.try_from record = .ok p) :
    ¬(p.convo = false ∧ p.who_last_replied = .Met)
    ∧ ¬(p.convo = true ∧ p.who_last_replied = .None) := by
  unfold HingeProfile.try_from at h
  split at h
  · exact absurd h (by simp)
  · rename_i w hw
    split at h
    · exact absurd h (by simp)
    · rename_i h1
      split at h
      · exact absurd h (by simp)
      · rename_i h2
        simp only [Except.ok.injEq] at h
        subst h
        constructor
        · rintro ⟨hc, hm⟩
          simp only at hc hm
          exact h1 ⟨hm, by simpa using hc⟩
        · rintro ⟨hc, hn⟩
          simp only at hc hn
          exact h2 ⟨hn, by simpa using hc⟩

theorem validated_profiles_valid (records : List HingeProfileCSVRecord) :
    ∀ p ∈ validated_profiles records,
      ¬(p.convo = false ∧ p.who_last_replied = .Met)
      ∧ ¬(p.convo = true ∧ p.who_last_replied = .None) := by
  intro p hp
  obtain ⟨record, hmem, hr⟩ := List.mem_filterMap.mp hp
  rcases he : HingeProfile.try_from record with e | q
  · rw [he] at hr
    exact absurd hr (by simp [Except.toOption])
  · rw [he] at hr
    simp only [Except.toOption, Option.some.injEq] at hr
    subst hr
    exact try_from_ok_valid record q he

theorem obs_equiv_filterMap_race (ps qs : List HingeProfile)
    (h : List.Forall₂ obs_equiv ps qs) :
    ps.filterMap (·.race) = qs.filterMap (·.race) := by
  induction h with
  | nil => rfl
  | cons hpq _ ih =>
    simp only [List.filterMap_cons, hpq.2.2.2.2, ih]

theorem obs_equiv_hispanic_bits (ps qs : List HingeProfile)
    (h : List.Forall₂ obs_equiv ps qs) :
    hispanic_ethnicity_bits ps = hispanic_ethnicity_bits qs := by
  induction h with
  | nil => rfl
  | cons hpq _ ih =>
    simp only [hispanic_ethnicity_bits, List.filter_cons, hpq.2.2.2.1] at *
    split
    · simp only [List.map_cons, hpq.2.2.2.1, ih]
    · exact ih

theorem obs_equiv_funnel_step (c : FunnelCounts) (p q : HingeProfile)
    (h : obs_equiv p q) : funnel_step c p = funnel_step c q := by
  simp only [funnel_step, h.2.1, h.2.2.1]

theorem obs_equiv_tally (ps qs : List HingeProfile)
    (h : List.Forall₂ obs_equiv ps qs) : funnelTally ps = funnelTally qs := by
  have key : ∀ acc : Option FunnelCounts,
      ps.foldl (fun acc profile => acc.bind (funnel_step · profile)) acc
        = qs.foldl (fun acc profile => acc.bind (funnel_step · profile)) acc := by
    induction h with
    | nil => intro acc; rfl
    | @cons a b l1 l2 hpq htail ih =>
      intro acc
      simp only [List.foldl_cons]
      have hb : (acc.bind (funnel_step · a)) = (acc.bind (funnel_step · b)) := by
        cases acc with
        | none => rfl
        | some c => simpa using obs_equiv_funnel_step c a b hpq
      rw [hb]
      exact ih _
  exact key (some funnel_init)

theorem sort_preferences_all_nan :
    ∀ (l : List RacialPreference), (∀ p ∈ l, p.weight = .nan) → 2 ≤ l.length →
      sort_preferences l = none
  | [], h, hl => by simp at hl
  | [x], h, hl => by simp at hl
  | x :: y :: ys, h, hl => by
    rcases hlen : ys.length with _ | n
    · have hy : ys = [] := List.length_eq_zero.mp hlen
      subst hy
      have hx := h x (by simp)
      have hy := h y (by simp)
      simp [sort_preferences, sortByCmp, insertByCmp, F64.cmpOpt, hx, hy]
    · have ih := sort_preferences_all_nan (y :: ys)
        (fun p hp => h p (by simp at hp ⊢; tauto))
        (by simp [hlen])
      simp only [sort_preferences, sortByCmp] at ih ⊢
      rw [ih]
      rfl

theorem racial_preferences_cutoff_weight
    (cutoff : Nat) (counts hcounts : Race → Nat) (rweights hweights : Race → F64) :
    ∀ p ∈ racial_preferences cutoff counts hcounts rweights hweights,
      p.count < cutoff → p.weight = .fin 0 := by
  intro p hp hlt
  rcases List.mem_append.mp hp with hg | hh
  · obtain ⟨r, hr, rfl⟩ := List.mem_map.mp hg
    simp only at hlt ⊢
    rw [if_pos hlt]
  · obtain ⟨r, hr, rfl⟩ := List.mem_map.mp hh
    simp only at hlt ⊢
    rw [if_pos hlt]

theorem racial_preferences_weight_fin
    (cutoff : Nat) (counts hcounts : Race → Nat) (rweights hweights : Race → F64)
    (hgen : ∀ r ∈ hispanic_race_domain, ∃ q : ℚ, q ≠ 0 ∧ rweights r = .fin q)
    (hhis : ∃ qh : ℚ, qh ≠ 0 ∧ rweights Race.Hispanic = .fin qh)
    (hsub : ∀ r ∈ hispanic_race_domain, ∃ q : ℚ, q ≠ 0 ∧ hweights r = .fin q) :
    ∀ p ∈ racial_preferences cutoff counts hcounts rweights hweights,
      ∃ w : ℚ, p.weight = .fin w := by
  intro p hp
  rcases List.mem_append.mp hp with hg | hh
  · obtain ⟨r, hr, rfl⟩ := List.mem_map.mp hg
    simp only
    by_cases hc : counts r < cutoff
    · exact ⟨0, by rw [if_pos hc]⟩
    · obtain ⟨q, hq0, hqe⟩ := hgen r hr
      refine ⟨(counts r : ℚ) / q, ?_⟩
      rw [if_neg hc, hqe, F64.ofNat, F64.div_fin_fin _ _ hq0]
  · obtain ⟨r, hr, rfl⟩ := List.mem_map.mp hh
    simp only
    by_cases hc : hcounts r < cutoff
    · exact ⟨0, by rw [if_pos hc]⟩
    · obtain ⟨qh, hqh0, hqhe⟩ := hhis
      obtain ⟨q, hq0, hqe⟩ := hsub r hr
      refine ⟨(hcounts r : ℚ) / (qh * q), ?_⟩
      rw [if_neg hc, hqe, hqhe, F64.ofNat, F64.mul_fin_fin,
          F64.div_fin_fin _ _ (mul_ne_zero hqh0 hq0)]

/-! ## Claim theorems -/

/-- Claim C1: for every EthnicitySet, `classify` (the source's
`TryFrom<Ethnicities> for Race`) follows the exact precedence policy of the
spec — empty set fails with `EmptyEthnicity`; after removing the
MiddleEastern flag an empty remainder fails with `UnsupportedOnly`; an exact
single supported flag maps by the fixed table; a non-empty remainder that is
a subset of {SoutheastAsian, EastAsian, SouthAsian} maps to Asian; otherwise
a remainder containing HispanicLatino maps to Hispanic; every other remainder
maps to Multiracial — together with the five concrete examples. -/
theorem C1_classifier_follows_precedence_policy :
    (∀ (na se bl ea hl mi pa sa wc ot : Bool),
      Race.try_from (EthnicitySet.toBits ⟨na, se, bl, ea, hl, mi, pa, sa, wc, ot⟩)
        = classifySpec ⟨na, se, bl, ea, hl, mi, pa, sa, wc, ot⟩)
    ∧ Race.try_from (Ethnicities.SOUTHEAST_ASIAN ||| Ethnicities.EAST_ASIAN)
        = .ok .Asian
    ∧ Race.try_from (Ethnicities.NATIVE_AMERICAN ||| Ethnicities.EAST_ASIAN)
        = .ok .Multiracial
    ∧ Race.try_from (Ethnicities.HISPANIC_LATINO ||| Ethnicities.WHITE_CAUCASIAN)
        = .ok .Hispanic
    ∧ Race.try_from 0 = .error .EmptyEthnicity
    ∧ Race.try_from Ethnicities.MIDDLE_EASTERN = .error .UnsupportedOnly := by
  refine ⟨?_, by decide, by decide, by decide, by decide, by decide⟩
  decide

/-- Claim C5: for every EthnicitySet carrying the HispanicLatino flag, the
Hispanic sub-race classification strips the flag, maps to Other when the
remainder is empty, otherwise re-runs the ordinary classifier on the
remainder, and never yields Hispanic; with the two concrete examples. -/
theorem C5_hispanic_subrace_classification :
    (∀ (na se bl ea mi pa sa wc ot : Bool),
      (((⟨na, se, bl, ea, false, mi, pa, sa, wc, ot⟩ : EthnicitySet)
          = EthnicitySet.empty) →
        classify_hispanic_subrace
          (EthnicitySet.toBits ⟨na, se, bl, ea, true, mi, pa, sa, wc, ot⟩)
          = .ok .Other)
      ∧ (((⟨na, se, bl, ea, false, mi, pa, sa, wc, ot⟩ : EthnicitySet)
          ≠ EthnicitySet.empty) →
        classify_hispanic_subrace
          (EthnicitySet.toBits ⟨na, se, bl, ea, true, mi, pa, sa, wc, ot⟩)
          = Race.try_from
              (EthnicitySet.toBits ⟨na, se, bl, ea, false, mi, pa, sa, wc, ot⟩))
      ∧ classify_hispanic_subrace
          (EthnicitySet.toBits ⟨na, se, bl, ea, true, mi, pa, sa, wc, ot⟩)
          ≠ .ok .Hispanic)
    ∧ classify_hispanic_subrace Ethnicities.HISPANIC_LATINO = .ok .Other
    ∧ classify_hispanic_subrace
        (Ethnicities.HISPANIC_LATINO ||| Ethnicities.BLACK_AFRICAN_DESCENT)
        = .ok .BlackAfrican := by
  refine ⟨?_, by decide, by decide⟩
  decide

/-- Witness for C5 at a concrete input: the set {HispanicLatino,
BlackAfricanDescent} has a non-empty remainder after stripping the flag, and
the sub-race classification equals the classifier on that remainder. -/
theorem C5_witness :
    ((⟨false, false, true, false, false, false, false, false, false, false⟩ :
        EthnicitySet) ≠ EthnicitySet.empty)
    ∧ classify_hispanic_subrace
        (EthnicitySet.toBits
          ⟨false, false, true, false, true, false, false, false, false, false⟩)
        = Race.try_from
            (EthnicitySet.toBits
              ⟨false, false, true, false, false, false, false, false, false, false⟩) :=
  ⟨by decide,
   (C5_hispanic_subrace_classification.1 false false true false false false false
      false false).2.1 (by decide)⟩

/-- Claim C10: a profile whose ethnicity set is exactly
{HispanicLatino, MiddleEastern} classifies as Hispanic in the general race
counts, but its sub-race remainder {MiddleEastern} fails with the
unsupported-only error and is filtered out of the Hispanic sub-race
breakdown (rather than mapped to Other). -/
theorem C10_hl_me_profile :
    Race.try_from (Ethnicities.HISPANIC_LATINO ||| Ethnicities.MIDDLE_EASTERN)
      = .ok .Hispanic
    ∧ hispanic_subrace_bits
        (Ethnicities.HISPANIC_LATINO ||| Ethnicities.MIDDLE_EASTERN)
      = Ethnicities.MIDDLE_EASTERN
    ∧ classify_hispanic_subrace
        (Ethnicities.HISPANIC_LATINO ||| Ethnicities.MIDDLE_EASTERN)
      = .error .UnsupportedOnly
    ∧ profile_race_counts [profile_hl_me] Race.Hispanic = 1
    ∧ (∀ race, profile_hispanic_race_counts [profile_hl_me] race = 0)
    ∧ hispanic_ethnicity_bits [profile_hl_me] = [Ethnicities.MIDDLE_EASTERN] := by
  refine ⟨by decide, by decide, by decide, by decide, ?_, by decide⟩
  intro race
  cases race <;> decide

/-- Counterexample to claim C2: with empty input record sets the grand total
is zero, yet no failure occurs — the baseline builder has no `EmptyBaseline`
error and unconditionally proceeds to normalization, dividing `0.0` by the
zero total and producing NaN weights (the claim says the run aborts before
normalization and never divides by zero). -/
theorem C2_counterexample :
    race_total_population [] = .fin 0
    ∧ race_weights [] Race.WhiteCaucasian = .nan
    ∧ hispanic_race_total_population [] = .fin 0
    ∧ hispanic_race_weights [] Race.Other = .nan := by
  refine ⟨?_, ?_, ?_, ?_⟩ <;>
    simp [race_total_population, race_weights, race_weights_sum,
          hispanic_race_total_population, hispanic_race_weights,
          hispanic_race_weights_sum, population_sum, Race.entries,
          hispanic_race_domain, F64.sum, F64.add, F64.div, F64.ofNat]

/-- Claim C2 amended: building the demographic baseline never fails — the
code defines no `EmptyBaseline` error and performs no emptiness or zero-total
check.  Whenever a grand total is zero (in particular when that input record
set is empty), every per-race sum is zero as well, so normalization divides
`0.0` by `0.0` and every weight of that distribution is NaN; the run
proceeds. -/
theorem C2_baseline_never_fails
    (records : List CountyDemographicsCSVRecord)
    (hrecords : List CountyHispanicDemographicsCSVRecord) :
    (race_total_population records = .fin 0 →
      ∀ race, race_weights records race = .nan)
    ∧ (hispanic_race_total_population hrecords = .fin 0 →
      ∀ race, hispanic_race_weights hrecords race = .nan) := by
  constructor
  · intro htot race
    have hz : ∀ r ∈ Race.entries,
        (records.map (general_population_field · r)).sum = 0 := by
      apply baseline_sums_zero Race.entries records
        (fun r record => general_population_field record r)
      have hmap : Race.entries.map (race_weights_sum records)
          = Race.entries.map
              (fun r => F64.ofNat ((records.map (general_population_field · r)).sum)) :=
        List.map_congr_left (fun r _ => race_weights_sum_eq records r)
      rw [race_total_population, hmap] at htot
      exact htot
    have hr : race ∈ Race.entries := by cases race <;> decide
    have hsum : race_weights_sum records race = F64.fin 0 := by
      rw [race_weights_sum_eq, hz race hr]
      rfl
    rw [race_weights, hsum, htot, F64.div_zero_zero]
  · intro htot race
    have hz : ∀ r ∈ hispanic_race_domain,
        (hrecords.map (hispanic_population_field · r)).sum = 0 := by
      apply baseline_sums_zero hispanic_race_domain hrecords
        (fun r record => hispanic_population_field record r)
      have hmap : hispanic_race_domain.map (hispanic_race_weights_sum hrecords)
          = hispanic_race_domain.map
              (fun r => F64.ofNat ((hrecords.map (hispanic_population_field · r)).sum)) :=
        List.map_congr_left (fun r _ => hispanic_race_weights_sum_eq hrecords r)
      rw [hispanic_race_total_population, hmap] at htot
      exact htot
    have hsum : hispanic_race_weights_sum hrecords race = F64.fin 0 := by
      by_cases hr : race ∈ hispanic_race_domain
      · rw [hispanic_race_weights_sum_eq, hz race hr]
        rfl
      · have : race = Race.Hispanic := by
          cases race <;> simp_all [hispanic_race_domain]
        subst this
        rw [hispanic_race_weights_sum_eq]
        simp [hispanic_population_field, F64.ofNat]
    rw [hispanic_race_weights, hsum, htot, F64.div_zero_zero]

/-- Witness for the amended C2 at the concrete empty inputs. -/
theorem C2_witness :
    race_total_population [] = .fin 0
    ∧ hispanic_race_total_population [] = .fin 0
    ∧ race_weights [] Race.Asian = .nan
    ∧ hispanic_race_weights [] Race.Asian = .nan := by
  have hg : race_total_population [] = F64.fin 0 := by
    simp [race_total_population, race_weights_sum, population_sum, Race.entries,
          F64.sum, F64.add, F64.ofNat]
  have hh : hispanic_race_total_population [] = F64.fin 0 := by
    simp [hispanic_race_total_population, hispanic_race_weights_sum,
          population_sum, hispanic_race_domain, F64.sum, F64.add, F64.ofNat]
  exact ⟨hg, hh,
    (C2_baseline_never_fails [] []).1 hg Race.Asian,
    (C2_baseline_never_fails [] []).2 hh Race.Asian⟩

/-- Counterexample to claim C3: with every count below the cutoff (here all
zero) the raw weights are all `0.0`, their total is `0.0`, normalization
computes `0.0 / 0.0 = NaN` for every entry, and the descending sort's
`partial_cmp(..).expect` panics (modelled by `none`) — there is no
`DegenerateDistribution` error and the computation does crash. -/
theorem C3_counterexample :
    preference_pipeline 2 (fun _ => 0) (fun _ => 0)
      (fun _ => .fin (1/8)) (fun _ => .fin (1/7)) = none := by
  simp [preference_pipeline, racial_preferences, hispanic_race_domain,
        normalize_preferences, racial_preferences_total_weight, sort_preferences,
        sortByCmp, insertByCmp, F64.sum, F64.add, F64.div, F64.cmpOpt, F64.ofNat]

/-- Claim C3 amended: when every source count is below the sample cutoff, the
preference-index computation does not fail with a `DegenerateDistribution`
error (no such error exists in the code) and does not produce a report: the
zero total makes normalization produce NaN for every weight, and the sort's
comparator `.expect` panics. -/
theorem C3_degenerate_total_panics (cutoff : Nat) (counts hcounts : Race → Nat)
    (rweights hweights : Race → F64)
    (hc : ∀ r, counts r < cutoff) (hh : ∀ r, hcounts r < cutoff) :
    preference_pipeline cutoff counts hcounts rweights hweights = none := by
  set l := racial_preferences cutoff counts hcounts rweights hweights with hl
  have hw0 : ∀ p ∈ l, p.weight = F64.fin 0 := by
    intro p hp
    rcases List.mem_append.mp hp with hg | hhm
    · obtain ⟨r, hr, rfl⟩ := List.mem_map.mp hg
      simp only
      rw [if_pos (hc r)]
    · obtain ⟨r, hr, rfl⟩ := List.mem_map.mp hhm
      simp only
      rw [if_pos (hh r)]
  have htot : racial_preferences_total_weight l = F64.fin 0 := by
    rw [racial_preferences_total_weight,
        F64.sum_fin _ (fun x hx => by
          obtain ⟨p, hp, rfl⟩ := List.mem_map.mp hx
          exact ⟨0, hw0 p hp⟩)]
    have : ∀ x ∈ (l.map (·.weight)).map F64.toQ, x = 0 := by
      intro x hx
      obtain ⟨y, hy, rfl⟩ := List.mem_map.mp hx
      obtain ⟨p, hp, rfl⟩ := List.mem_map.mp hy
      rw [hw0 p hp]
      rfl
    rw [List.sum_eq_zero this]
  have hnan : ∀ p ∈ normalize_preferences l, p.weight = F64.nan := by
    intro p hp
    simp only [normalize_preferences] at hp
    obtain ⟨q, hq, rfl⟩ := List.mem_map.mp hp
    simp only
    rw [hw0 q hq, htot, F64.div_zero_zero]
  have hlen : 2 ≤ (normalize_preferences l).length := by
    simp [normalize_preferences, hl, racial_preferences, hispanic_race_domain]
  exact sort_preferences_all_nan _ hnan hlen

/-- Witness for the amended C3 at concrete inputs: all counts equal 1, cutoff
3, so every count is below the cutoff and the pipeline panics. -/
theorem C3_witness :
    (∀ r : Race, (fun _ : Race => 1) r < 3)
    ∧ preference_pipeline 3 (fun _ => 1) (fun _ => 1)
        (fun _ => .fin (1/8)) (fun _ => .fin (1/7)) = none :=
  ⟨fun _ => by norm_num,
   C3_degenerate_total_panics 3 (fun _ => 1) (fun _ => 1)
     (fun _ => .fin (1/8)) (fun _ => .fin (1/7))
     (fun _ => by norm_num) (fun _ => by norm_num)⟩

/-- Counterexample to claim C4: on an empty profile list every denominator
(`total`, `convo_you_attempted`, `convo_started`) is zero, yet the
funnel-metrics computation succeeds (there is no `InsufficientDataError` in
the code) and emits `0.0 / 0.0 = NaN` ratios for each of them. -/
theorem C4_counterexample :
    funnelTally [] = some funnel_init
    ∧ conversation_interested_score 0 funnel_init = .nan
    ∧ conversation_starter_score 0 funnel_init = .nan
    ∧ conversation_to_date_score funnel_init = .nan := by
  refine ⟨rfl, ?_, ?_, ?_⟩ <;>
    simp [conversation_interested_score, conversation_starter_score,
          conversation_to_date_score, convo_you_attempted_count, funnel_init,
          F64.ofNat, F64.div]

/-- Claim C4 amended: the funnel-metrics computation performs no denominator
check and defines no `InsufficientDataError`; whenever one of its three
denominators is zero, every ratio with that denominator is the NaN produced
by `0.0 / 0.0`, and the computation proceeds. -/
theorem C4_funnel_no_denominator_check (profiles : List HingeProfile)
    (c : FunnelCounts) (h : funnelTally profiles = some c) :
    (profiles.length = 0 →
      conversation_interested_score profiles.length c = .nan
      ∧ conversation_they_failed_score profiles.length c = .nan
      ∧ conversation_no_one_interested_score profiles.length c = .nan)
    ∧ (convo_you_attempted_count profiles.length c = 0 →
      conversation_starter_score profiles.length c = .nan
      ∧ conversation_starter_failed_score profiles.length c = .nan)
    ∧ (c.convo_started_count = 0 →
      conversation_to_them_ghosting_score c = .nan
      ∧ conversation_to_you_ghosting_score c = .nan
      ∧ conversation_to_date_score c = .nan) := by
  obtain ⟨hlen, hnc, hcs⟩ := funnelTally_invariant profiles c h
  refine ⟨?_, ?_, ?_⟩
  · intro h0
    have hna : c.no_convo_attempted_count = 0 := by omega
    have hnt : c.no_convo_they_failed_count = 0 := by omega
    have hcya : convo_you_attempted_count 0 c = 0 := by
      simp [convo_you_attempted_count]
    refine ⟨?_, ?_, ?_⟩ <;>
      simp [conversation_interested_score, conversation_they_failed_score,
            conversation_no_one_interested_score, hcya, h0, hna, hnt,
            F64.ofNat, F64.div]
  · intro h0
    have hcs0 : c.convo_started_count = 0 := by
      simp only [convo_you_attempted_count] at h0
      omega
    have hny : c.no_convo_you_failed_count = 0 := by
      simp only [convo_you_attempted_count] at h0
      omega
    refine ⟨?_, ?_⟩ <;>
      simp [conversation_starter_score, conversation_starter_failed_score,
            h0, hcs0, hny, F64.ofNat, F64.div]
  · intro h0
    have h1 : c.convo_started_you_failed_count = 0 := by omega
    have h2 : c.convo_started_they_failed_count = 0 := by omega
    have h3 : c.you_met_count = 0 := by omega
    refine ⟨?_, ?_, ?_⟩ <;>
      simp [conversation_to_them_ghosting_score, conversation_to_you_ghosting_score,
            conversation_to_date_score, h0, h1, h2, h3, F64.ofNat, F64.div]

/-- Witness for the amended C4 at the concrete empty profile list. -/
theorem C4_witness :
    funnelTally ([] : List HingeProfile) = some funnel_init
    ∧ conversation_interested_score ([] : List HingeProfile).length funnel_init = .nan
    ∧ conversation_they_failed_score ([] : List HingeProfile).length funnel_init = .nan
    ∧ conversation_no_one_interested_score ([] : List HingeProfile).length funnel_init
        = .nan :=
  ⟨rfl,
   ((C4_funnel_no_denominator_check [] funnel_init rfl).1 rfl).1,
   ((C4_funnel_no_denominator_check [] funnel_init rfl).1 rfl).2.1,
   ((C4_funnel_no_denominator_check [] funnel_init rfl).1 rfl).2.2⟩

/-- Claim C6: for every race of the general domain (which excludes Hispanic),
the list of raw preference entries contains the entry whose weight is `0` when
the count is below the cutoff and `count / generalBaseline[race]` otherwise;
for every race of the Hispanic-sub domain it contains the Hispanic-variant
entry whose weight is `0` below the cutoff and
`count / (generalBaseline[Hispanic] * hispanicSubBaseline[race])` otherwise;
and no entry of either domain carries the Hispanic race itself. -/
theorem C6_raw_weight_formulas (cutoff : Nat) (counts hcounts : Race → Nat)
    (rweights hweights : Race → F64) (race : Race)
    (hrace : race ≠ Race.Hispanic) :
    ({ race := race, hispanic := false,
       weight := if counts race < cutoff then .fin 0
                 else (F64.ofNat (counts race)).div (rweights race),
       count := counts race } : RacialPreference)
      ∈ racial_preferences cutoff counts hcounts rweights hweights
    ∧ ({ race := race, hispanic := true,
         weight := if hcounts race < cutoff then .fin 0
                   else (F64.ofNat (hcounts race)).div
                         ((rweights Race.Hispanic).mul (hweights race)),
         count := hcounts race } : RacialPreference)
      ∈ racial_preferences cutoff counts hcounts rweights hweights
    ∧ ∀ p ∈ racial_preferences cutoff counts hcounts rweights hweights,
        p.race ≠ Race.Hispanic := by
  have hmem : race ∈ hispanic_race_domain := by
    cases race <;> simp_all [hispanic_race_domain]
  refine ⟨?_, ?_, ?_⟩
  · exact List.mem_append_left _ (List.mem_map.mpr ⟨race, hmem, rfl⟩)
  · exact List.mem_append_right _ (List.mem_map.mpr ⟨race, hmem, rfl⟩)
  · intro p hp
    rcases List.mem_append.mp hp with hg | hhm
    · obtain ⟨r, hr, rfl⟩ := List.mem_map.mp hg
      simp only
      cases r <;> simp_all [hispanic_race_domain]
    · obtain ⟨r, hr, rfl⟩ := List.mem_map.mp hhm
      simp only
      cases r <;> simp_all [hispanic_race_domain]

/-- Witness for C6 at concrete inputs (cutoff 2, all counts 0, unit
baselines, race Asian). -/
theorem C6_witness :
    Race.Asian ≠ Race.Hispanic
    ∧ ({ race := Race.Asian, hispanic := false, weight := .fin 0, count := 0 } :
        RacialPreference)
      ∈ racial_preferences 2 (fun _ => 0) (fun _ => 0)
          (fun _ => .fin 1) (fun _ => .fin 1)
    ∧ ∀ p ∈ racial_preferences 2 (fun _ => 0) (fun _ => 0)
          (fun _ => .fin 1) (fun _ => .fin 1),
        p.race ≠ Race.Hispanic := by
  have h := C6_raw_weight_formulas 2 (fun _ => 0) (fun _ => 0)
    (fun _ => .fin 1) (fun _ => .fin 1) Race.Asian (by decide)
  exact ⟨by decide, by simpa using h.1, h.2.2⟩

/-- Counterexample to claim C7: if the general baseline weight of a race is
`0.0` while that race's count reaches the cutoff (a reachable census input:
zero recorded population for that race), its raw weight is `2.0 / 0.0 = inf`,
so the sum of raw weights is nonzero, yet the normalized weights sum to NaN
(`inf / inf = NaN`), not exactly 1. -/
theorem C7_counterexample :
    racial_preferences_total_weight
      (racial_preferences 2 c7_counts (fun _ => 0) c7_zero_white_weights
        (fun _ => .fin (1/7))) ≠ F64.fin 0
    ∧ racial_preferences_total_weight
        (normalize_preferences
          (racial_preferences 2 c7_counts (fun _ => 0) c7_zero_white_weights
            (fun _ => .fin (1/7)))) = F64.nan := by
  have hraw : racial_preferences 2 c7_counts (fun _ => 0) c7_zero_white_weights
      (fun _ => .fin (1/7))
      = [⟨.WhiteCaucasian, false, .inf, 2⟩, ⟨.BlackAfrican, false, .fin 0, 0⟩,
         ⟨.NativeAmerican, false, .fin 0, 0⟩, ⟨.Asian, false, .fin 0, 0⟩,
         ⟨.PacificIslander, false, .fin 0, 0⟩, ⟨.Multiracial, false, .fin 0, 0⟩,
         ⟨.Other, false, .fin 0, 0⟩,
         ⟨.WhiteCaucasian, true, .fin 0, 0⟩, ⟨.BlackAfrican, true, .fin 0, 0⟩,
         ⟨.NativeAmerican, true, .fin 0, 0⟩, ⟨.Asian, true, .fin 0, 0⟩,
         ⟨.PacificIslander, true, .fin 0, 0⟩, ⟨.Multiracial, true, .fin 0, 0⟩,
         ⟨.Other, true, .fin 0, 0⟩] := by
    norm_num [racial_preferences, hispanic_race_domain, c7_counts,
              c7_zero_white_weights, F64.ofNat, F64.div]
  have htot : racial_preferences_total_weight
      (racial_preferences 2 c7_counts (fun _ => 0) c7_zero_white_weights
        (fun _ => .fin (1/7))) = F64.inf := by
    rw [hraw]
    norm_num [racial_preferences_total_weight, F64.sum, F64.add]
  constructor
  · rw [htot]
    simp
  · simp only [normalize_preferences]
    rw [htot, hraw]
    norm_num [racial_preferences_total_weight, F64.sum, F64.add, F64.div]

/-- Claim C7 amended: provided every baseline weight the formulas consult is
a nonzero finite value (so no raw weight is `inf` or `NaN`), whenever the sum
of the raw preference weights is nonzero, dividing every entry's weight by
that sum makes the full output list sum to exactly 1, and every entry whose
source count is below the sample cutoff has normalized weight exactly 0. -/
theorem C7_normalized_weights_sum_one (cutoff : Nat)
    (counts hcounts : Race → Nat) (rweights hweights : Race → F64)
    (hgen : ∀ r ∈ hispanic_race_domain, ∃ q : ℚ, q ≠ 0 ∧ rweights r = .fin q)
    (hhis : ∃ qh : ℚ, qh ≠ 0 ∧ rweights Race.Hispanic = .fin qh)
    (hsub : ∀ r ∈ hispanic_race_domain, ∃ q : ℚ, q ≠ 0 ∧ hweights r = .fin q)
    (htot : racial_preferences_total_weight
        (racial_preferences cutoff counts hcounts rweights hweights) ≠ .fin 0) :
    racial_preferences_total_weight
      (normalize_preferences
        (racial_preferences cutoff counts hcounts rweights hweights)) = .fin 1
    ∧ ∀ p ∈ normalize_preferences
          (racial_preferences cutoff counts hcounts rweights hweights),
        p.count < cutoff → p.weight = .fin 0 := by
  set l := racial_preferences cutoff counts hcounts rweights hweights with hl
  have hfin := racial_preferences_weight_fin cutoff counts hcounts rweights hweights
    hgen hhis hsub
  have hwfin : ∀ x ∈ l.map (·.weight), ∃ q, x = F64.fin q := by
    intro x hx
    obtain ⟨p, hp, rfl⟩ := List.mem_map.mp hx
    exact hfin p hp
  set S : ℚ := ((l.map (·.weight)).map F64.toQ).sum with hS
  have htotS : racial_preferences_total_weight l = .fin S := by
    rw [racial_preferences_total_weight, F64.sum_fin _ hwfin]
  have hSne : S ≠ 0 := fun h0 => htot (by rw [htotS, h0])
  constructor
  · have hfin2 : ∀ x ∈ l.map (fun p => p.weight.div (.fin S)), ∃ q, x = F64.fin q := by
      intro x hx
      obtain ⟨p, hp, rfl⟩ := List.mem_map.mp hx
      obtain ⟨w, hw⟩ := hfin p hp
      exact ⟨w / S, by rw [hw, F64.div_fin_fin _ _ hSne]⟩
    have hmapw : (normalize_preferences l).map (·.weight)
        = l.map (fun p => p.weight.div (.fin S)) := by
      simp only [normalize_preferences, htotS, List.map_map]
      rfl
    rw [racial_preferences_total_weight, hmapw, F64.sum_fin _ hfin2]
    have hptw : ∀ p ∈ l,
        F64.toQ (p.weight.div (.fin S)) = F64.toQ p.weight / S := by
      intro p hp
      obtain ⟨w, hw⟩ := hfin p hp
      rw [hw, F64.div_fin_fin _ _ hSne]
      rfl
    have hcalc : ((l.map (fun p => p.weight.div (.fin S))).map F64.toQ).sum = 1 := by
      calc ((l.map (fun p => p.weight.div (.fin S))).map F64.toQ).sum
          = (l.map (fun p => F64.toQ p.weight / S)).sum := by
            rw [List.map_map]
            exact congrArg List.sum (List.map_congr_left hptw)
        _ = ((l.map (fun p => F64.toQ p.weight)).map (· / S)).sum := by
            rw [List.map_map]
            rfl
        _ = (l.map (fun p => F64.toQ p.weight)).sum / S := list_sum_map_div _ S
        _ = S / S := by
            rw [hS, List.map_map]
            rfl
        _ = 1 := div_self hSne
    rw [hcalc]
  · intro p hp hcnt
    simp only [normalize_preferences] at hp
    obtain ⟨q, hq, rfl⟩ := List.mem_map.mp hp
    simp only at hcnt ⊢
    have hq0 : q.weight = F64.fin 0 :=
      racial_preferences_cutoff_weight cutoff counts hcounts rweights hweights
        q hq hcnt
    rw [hq0, htotS, F64.div_fin_fin _ _ hSne, zero_div]

/-- Witness for the amended C7 at concrete inputs: count 2 for WhiteCaucasian
against a uniform positive baseline, all other counts 0; the raw total is 16
and the normalized weights sum to exactly 1. -/
theorem C7_witness :
    racial_preferences_total_weight
      (racial_preferences 2 c7_counts (fun _ => 0)
        (fun _ => .fin (1/8)) (fun _ => .fin (1/7))) ≠ F64.fin 0
    ∧ racial_preferences_total_weight
        (normalize_preferences
          (racial_preferences 2 c7_counts (fun _ => 0)
            (fun _ => .fin (1/8)) (fun _ => .fin (1/7)))) = .fin 1 := by
  have hraw : racial_preferences 2 c7_counts (fun _ => 0)
      (fun _ => .fin (1/8)) (fun _ => .fin (1/7))
      = [⟨.WhiteCaucasian, false, .fin 16, 2⟩, ⟨.BlackAfrican, false, .fin 0, 0⟩,
         ⟨.NativeAmerican, false, .fin 0, 0⟩, ⟨.Asian, false, .fin 0, 0⟩,
         ⟨.PacificIslander, false, .fin 0, 0⟩, ⟨.Multiracial, false, .fin 0, 0⟩,
         ⟨.Other, false, .fin 0, 0⟩,
         ⟨.WhiteCaucasian, true, .fin 0, 0⟩, ⟨.BlackAfrican, true, .fin 0, 0⟩,
         ⟨.NativeAmerican, true, .fin 0, 0⟩, ⟨.Asian, true, .fin 0, 0⟩,
         ⟨.PacificIslander, true, .fin 0, 0⟩, ⟨.Multiracial, true, .fin 0, 0⟩,
         ⟨.Other, true, .fin 0, 0⟩] := by
    norm_num [racial_preferences, hispanic_race_domain, c7_counts,
              F64.ofNat, F64.div]
  have ht : racial_preferences_total_weight
      (racial_preferences 2 c7_counts (fun _ => 0)
        (fun _ => .fin (1/8)) (fun _ => .fin (1/7))) = F64.fin 16 := by
    rw [hraw]
    norm_num [racial_preferences_total_weight, F64.sum, F64.add]
  have hne : racial_preferences_total_weight
      (racial_preferences 2 c7_counts (fun _ => 0)
        (fun _ => .fin (1/8)) (fun _ => .fin (1/7))) ≠ F64.fin 0 := by
    rw [ht]
    simp
  refine ⟨hne, (C7_normalized_weights_sum_one 2 _ _ _ _ ?_ ?_ ?_ hne).1⟩
  · exact fun r _ => ⟨1/8, by norm_num, rfl⟩
  · exact ⟨1/8, by norm_num, rfl⟩
  · exact fun r _ => ⟨1/7, by norm_num, rfl⟩

/-- Claim C8: every profile accepted by the validator excludes the
combinations (convo = false, who_last_replied = Met) and (convo = true,
who_last_replied = None), so the funnel tally over validated profiles never
reaches its two `unreachable!` arms (modelled by `none`) and always
produces counts. -/
theorem C8_validator_excludes_unreachable :
    (∀ (record : HingeProfileCSVRecord) (p : HingeProfile),
        HingeProfile.try_from record = .ok p →
        ¬(p.convo = false ∧ p.who_last_replied = .Met)
        ∧ ¬(p.convo = true ∧ p.who_last_replied = .None))
    ∧ ∀ records : List HingeProfileCSVRecord,
        (funnelTally (validated_profiles records)).isSome = true := by
  constructor
  · exact try_from_ok_valid
  · intro records
    obtain ⟨c, hc⟩ := funnel_fold_isSome (validated_profiles records)
      (validated_profiles_valid records) funnel_init
    rw [funnelTally, hc]
    rfl

/-- Witness for C8 at a concrete validated record. -/
theorem C8_witness :
    HingeProfile.try_from ⟨"a", 1, 1, "You", 1, 0, 0, 0, 0, 0, 0, 0, 0, 1, 0⟩
      = .ok ⟨"a", true, true, .You, true, Ethnicities.WHITE_CAUCASIAN,
              some .WhiteCaucasian⟩
    ∧ ¬((⟨"a", true, true, .You, true, Ethnicities.WHITE_CAUCASIAN,
          some .WhiteCaucasian⟩ : HingeProfile).convo = false
        ∧ (⟨"a", true, true, .You, true, Ethnicities.WHITE_CAUCASIAN,
            some .WhiteCaucasian⟩ : HingeProfile).who_last_replied = .Met)
    ∧ (funnelTally (validated_profiles
        [⟨"a", 1, 1, "You", 1, 0, 0, 0, 0, 0, 0, 0, 0, 1, 0⟩])).isSome = true :=
  have h : HingeProfile.try_from ⟨"a", 1, 1, "You", 1, 0, 0, 0, 0, 0, 0, 0, 0, 1, 0⟩
      = .ok ⟨"a", true, true, .You, true, Ethnicities.WHITE_CAUCASIAN,
              some .WhiteCaucasian⟩ := by decide
  ⟨h,
   (C8_validator_excludes_unreachable.1 _ _ h).1,
   C8_validator_excludes_unreachable.2 _⟩

/-- Claim C9: two validated profile lists that agree pointwise on every field
except possibly `matched` and `ethnicity_specified` yield identical race
counts, identical Hispanic sub-race counts, an identical preference pipeline
result (weights and order), an identical funnel tally, and identical derived
ratios: those two fields are stored but never read downstream. -/
theorem C9_matched_specified_noninterference (ps qs : List HingeProfile)
    (h : List.Forall₂ obs_equiv ps qs) (cutoff : Nat)
    (rweights hweights : Race → F64) :
    (∀ race, profile_race_counts ps race = profile_race_counts qs race)
    ∧ (∀ race, profile_hispanic_race_counts ps race
        = profile_hispanic_race_counts qs race)
    ∧ preference_pipeline cutoff (profile_race_counts ps)
        (profile_hispanic_race_counts ps) rweights hweights
      = preference_pipeline cutoff (profile_race_counts qs)
          (profile_hispanic_race_counts qs) rweights hweights
    ∧ funnelTally ps = funnelTally qs
    ∧ funnel_report ps = funnel_report qs := by
  have h1 : ps.filterMap (·.race) = qs.filterMap (·.race) :=
    obs_equiv_filterMap_race ps qs h
  have h2 : hispanic_ethnicity_bits ps = hispanic_ethnicity_bits qs :=
    obs_equiv_hispanic_bits ps qs h
  have hrc : profile_race_counts ps = profile_race_counts qs := by
    unfold profile_race_counts
    rw [h1]
  have hhc : profile_hispanic_race_counts ps = profile_hispanic_race_counts qs := by
    unfold profile_hispanic_race_counts
    rw [h2]
  have htal : funnelTally ps = funnelTally qs := obs_equiv_tally ps qs h
  have hlen : ps.length = qs.length := List.Forall₂.length_eq h
  refine ⟨fun race => by rw [hrc], fun race => by rw [hhc],
          by rw [hrc, hhc], htal, ?_⟩
  unfold funnel_report
  rw [htal, hlen]

/-- Witness for C9 at two concrete singleton lists differing only in
`matched` and `ethnicity_specified`. -/
theorem C9_witness :
    List.Forall₂ obs_equiv
      [⟨"n", true, true, .You, true, Ethnicities.WHITE_CAUCASIAN,
         some .WhiteCaucasian⟩]
      [⟨"n", false, true, .You, false, Ethnicities.WHITE_CAUCASIAN,
         some .WhiteCaucasian⟩]
    ∧ funnelTally
        [(⟨"n", true, true, .You, true, Ethnicities.WHITE_CAUCASIAN,
           some .WhiteCaucasian⟩ : HingeProfile)]
      = funnelTally
          [(⟨"n", false, true, .You, false, Ethnicities.WHITE_CAUCASIAN,
             some .WhiteCaucasian⟩ : HingeProfile)]
    ∧ funnel_report
        [(⟨"n", true, true, .You, true, Ethnicities.WHITE_CAUCASIAN,
           some .WhiteCaucasian⟩ : HingeProfile)]
      = funnel_report
          [(⟨"n", false, true, .You, false, Ethnicities.WHITE_CAUCASIAN,
             some .WhiteCaucasian⟩ : HingeProfile)]
    ∧ profile_race_counts
        [(⟨"n", true, true, .You, true, Ethnicities.WHITE_CAUCASIAN,
           some .WhiteCaucasian⟩ : HingeProfile)] Race.WhiteCaucasian
      = profile_race_counts
          [(⟨"n", false, true, .You, false, Ethnicities.WHITE_CAUCASIAN,
             some .WhiteCaucasian⟩ : HingeProfile)] Race.WhiteCaucasian :=
  have hf : List.Forall₂ obs_equiv
      [(⟨"n", true, true, .You, true, Ethnicities.WHITE_CAUCASIAN,
         some .WhiteCaucasian⟩ : HingeProfile)]
      [(⟨"n", false, true, .You, false, Ethnicities.WHITE_CAUCASIAN,
         some .WhiteCaucasian⟩ : HingeProfile)] :=
    .cons ⟨rfl, rfl, rfl, rfl, rfl⟩ .nil
  have h := C9_matched_specified_noninterference _ _ hf 2
    (fun _ => .fin 1) (fun _ => .fin 1)
  ⟨hf, h.2.2.2.1, h.2.2.2.2, h.1 Race.WhiteCaucasian⟩
